import Mathlib

set_option linter.unusedVariables false

namespace EFD

/-- Directory entry as yielded by os.scandir: a name and whether the entry is a
subdirectory (entry.is_dir with follow_symlinks=False). -/
structure Entry where
  name : String
  isDir : Bool
deriving DecidableEq, Repr

/-- Fixed ignorable-file policy table (IGNORABLE_FILES in processor.py / utils.py). -/
def IGNORABLE_FILES : List String := ["Thumbs.db", "desktop.ini", ".DS_Store"]

/-- Characters of a path after the last slash: model of os.path.basename for the
slash-separated relative paths used in this development. -/
def pyBasename (p : String) : String :=
  String.mk ((p.toList.reverse.takeWhile (fun c => c ≠ '/')).reverse)

/-- Path before the last slash, "" when the path has no slash. Used to derive the
children of a directory in the filesystem model. -/
def parentDir (p : String) : String :=
  String.mk (((p.toList.reverse.dropWhile (fun c => c ≠ '/')).reverse).dropLast)

/-- Result of os.stat in the model: success carries the modification time; failure
is either FileNotFoundError or some other exception (with its message). -/
inductive StatRes where
  | ok (mtime : Int)
  | fnf
  | err (msg : String)
deriving DecidableEq, Repr

/-- Filesystem model: the existing directories and files (identified by path), and
which filesystem calls raise. scandir of d lists the entries whose parentDir is d;
it raises exactly when d is in scanFails or d is not an existing directory.
rmdir raises exactly when the directory is in rmdirFails. os.remove (together with
the preceding chmod) raises exactly when the file is in removeFails. os.stat
raises a non-FileNotFoundError exception exactly when the path is in statFails,
and FileNotFoundError when the path does not exist. -/
structure FS where
  dirs : List String
  files : List String
  scanFails : List String
  rmdirFails : List String
  removeFails : List String
  statFails : List String
  mtime : String → Int

/-- Model of os.path.isdir. -/
def FS.isdir (fs : FS) (p : String) : Bool :=
  fs.dirs.contains p

/-- Entries of a directory, derived from the paths present in the filesystem. -/
def childEntries (fs : FS) (d : String) : List Entry :=
  (fs.dirs.filter (fun p => parentDir p == d)).map (fun p => ⟨pyBasename p, true⟩)
    ++ (fs.files.filter (fun p => parentDir p == d)).map (fun p => ⟨pyBasename p, false⟩)

/-- Model of os.scandir: none models the enumeration raising an exception. -/
def FS.scandir (fs : FS) (d : String) : Option (List Entry) :=
  if fs.scanFails.contains d || !(fs.dirs.contains d) then none
  else some (childEntries fs d)

/-- Model of a successful os.rmdir: the directory ceases to exist. -/
def FS.rmdir (fs : FS) (d : String) : FS :=
  { fs with dirs := fs.dirs.erase d }

/-- Model of os.stat. -/
def FS.statOf (fs : FS) (p : String) : StatRes :=
  if fs.statFails.contains p then .err "OSError"
  else if fs.dirs.contains p || fs.files.contains p then .ok (fs.mtime p)
  else .fnf

/-- Message recorded by save_error_log when a scandir enumeration raises; the
source logs the exception type and text, modelled by a fixed tag. -/
def scandirErrMsg : String := "OSError: scandir"

/-- Message recorded when os.rmdir raises. -/
def rmdirErrMsg : String := "OSError: rmdir"

/-- Message recorded when removing an ignorable file raises. -/
def removeErrMsg : String := "OSError: remove"

/-- Loop body of _effective_count (processor.py lines 27-37): walk the scandir
entries with the running count; any subdirectory short-circuits to 1, ignorable
names are skipped when the flag is set, and the first counted file returns the
count, which has just become 1. -/
def effCountLoop (g : Bool) : List Entry → Nat → Nat
  | [], _ => 0
  | e :: rest, count =>
    if e.isDir then 1
    else if g && IGNORABLE_FILES.contains e.name then effCountLoop g rest count
    else
      let c := count + 1
      if c > 0 then c else effCountLoop g rest c

/-- Embedding of _effective_count (processor.py lines 24-40, identical copy in
utils.py lines 64-80): the effective element count together with the error-log
entries the call appends. On enumeration failure it logs one entry for the
directory and returns 1. -/
def _effective_count (fs : FS) (dirpath : String) (g : Bool) :
    Nat × List (String × String) :=
  match fs.scandir dirpath with
  | some entries => (effCountLoop g entries 0, [])
  | none => (1, [(dirpath, scandirErrMsg)])

/-- Loop body of _is_effectively_empty (processor.py lines 12-19): false on the
first subdirectory or first non-ignorable file, true when the entries run out. -/
def isEmptyLoop (g : Bool) : List Entry → Bool
  | [] => true
  | e :: rest =>
    if e.isDir then false
    else if g && IGNORABLE_FILES.contains e.name then isEmptyLoop g rest
    else false

/-- Embedding of _is_effectively_empty (processor.py lines 9-22): the boolean
verdict together with the error-log entries the call appends. On enumeration
failure it logs one entry and returns false. -/
def _is_effectively_empty (fs : FS) (dirpath : String) (g : Bool) :
    Bool × List (String × String) :=
  match fs.scandir dirpath with
  | some entries => (isEmptyLoop g entries, [])
  | none => (false, [(dirpath, scandirErrMsg)])

theorem isEmptyLoop_iff_effCountLoop (g : Bool) :
    ∀ (es : List Entry) (count : Nat),
      (isEmptyLoop g es = true ↔ effCountLoop g es count = 0) := by
  intro es
  induction es with
  | nil => intro count; simp [isEmptyLoop, effCountLoop]
  | cons e rest ih =>
    intro count
    by_cases hd : e.isDir
    · simp [isEmptyLoop, effCountLoop, hd]
    · by_cases hg : g = true ∧ e.name ∈ IGNORABLE_FILES
      · simpa [isEmptyLoop, effCountLoop, hd, hg] using ih count
      · simp [isEmptyLoop, effCountLoop, hd, hg]

theorem effCountLoop_le_one (g : Bool) :
    ∀ es : List Entry, effCountLoop g es 0 ≤ 1 := by
  intro es
  induction es with
  | nil => simp [effCountLoop]
  | cons e rest ih =>
    by_cases hd : e.isDir
    · simp [effCountLoop, hd]
    · by_cases hg : g = true ∧ e.name ∈ IGNORABLE_FILES
      · simpa [effCountLoop, hd, hg] using ih
      · simp [effCountLoop, hd, hg]

/-- C9: for every filesystem state, directory path and value of the
ignore-garbage flag, the boolean evaluator used by the deleter agrees with the
counting evaluator used by the scanner: _is_effectively_empty is true exactly
when _effective_count returns 0, including when enumeration of the directory
fails. -/
theorem C9_is_empty_iff_count_zero (fs : FS) (dirpath : String) (g : Bool) :
    (_is_effectively_empty fs dirpath g).1 = true ↔
      (_effective_count fs dirpath g).1 = 0 := by
  unfold _is_effectively_empty _effective_count
  cases h : fs.scandir dirpath with
  | none => simp
  | some entries => simpa using isEmptyLoop_iff_effCountLoop g entries 0

/-- C10: for every filesystem state, directory path and value of the
ignore-garbage flag, _effective_count returns only 0 or 1, never any larger
value: it short-circuits on the first subdirectory, on the first counted file
and on enumeration failure. -/
theorem C10_count_zero_or_one (fs : FS) (dirpath : String) (g : Bool) :
    (_effective_count fs dirpath g).1 = 0 ∨ (_effective_count fs dirpath g).1 = 1 := by
  unfold _effective_count
  cases h : fs.scandir dirpath with
  | none => simp
  | some entries =>
    simp only
    have := effCountLoop_le_one g entries
    omega

/-- The process-wide SCAN_CACHE (utils.py line 13): association of a path with
its (last observed mtime, last computed effective count). -/
abbrev Cache := List (String × Int × Nat)

/-- Embedding of utils.cache_get. -/
def cache_get (c : Cache) (p : String) : Option (Int × Nat) :=
  (c.find? (fun e => e.1 == p)).map (fun e => e.2)

/-- Embedding of utils.cache_set: dictionary assignment keyed by the path. -/
def cache_set (c : Cache) (p : String) (m : Int) (cnt : Nat) : Cache :=
  (p, m, cnt) :: c.filter (fun e => !(e.1 == p))

/-- Plain string prefix test, modelling str.startswith. -/
def strStarts (s pre : String) : Bool :=
  pre.toList.isPrefixOf s.toList

/-- Embedding of utils.cache_clear_under: removes every entry whose key starts
with root as a plain string. -/
def cache_clear_under (c : Cache) (root : String) : Cache :=
  c.filter (fun e => !(strStarts e.1 root))

theorem cache_get_set (c : Cache) (p : String) (m : Int) (cnt : Nat) :
    cache_get (cache_set c p m cnt) p = some (m, cnt) := by
  simp [cache_get, cache_set, List.find?]

/-- Observable outcome of one is_dir_empty_cached call: the verdict, the cache
afterwards, how many scandir enumerations the call performed, and the error-log
entries it appended. -/
structure CachedRes where
  result : Bool
  cache : Cache
  enumCalls : Nat
  log : List (String × String)
deriving DecidableEq, Repr

/-- Embedding of is_dir_empty_cached (utils.py lines 82-101; the closure inside
find_empty_folders at processor.py lines 68-82 has identical logic). Only
FileNotFoundError from os.stat is caught; any other stat exception propagates,
modelled by the Except error. -/
def is_dir_empty_cached (fs : FS) (cache : Cache) (p : String)
    (ignoreG fastRescan : Bool) : Except String CachedRes :=
  if !fastRescan then
    let r := _effective_count fs p ignoreG
    .ok ⟨r.1 == 0, cache, 1, r.2⟩
  else
    match fs.statOf p with
    | .err e => .error e
    | .fnf => .ok ⟨false, cache, 0, []⟩
    | .ok m =>
      match cache_get cache p with
      | some c0 =>
        if c0.1 == m then .ok ⟨c0.2 == 0, cache, 0, []⟩
        else
          let r := _effective_count fs p ignoreG
          .ok ⟨r.1 == 0, cache_set cache p m r.1, 1, r.2⟩
      | none =>
        let r := _effective_count fs p ignoreG
        .ok ⟨r.1 == 0, cache_set cache p m r.1, 1, r.2⟩

/-- Stable insertion keeping longer paths first; equal lengths keep their
relative order, modelling Python's stable sorted(key=len, reverse=True). -/
def insertByLen (a : String) : List String → List String
  | [] => [a]
  | b :: bs => if b.length > a.length then b :: insertByLen a bs else a :: b :: bs

/-- Sort longest path first (stable). -/
def sortByLenDesc (l : List String) : List String := l.foldr insertByLen []

/-- Stable lexicographic insertion for the scanner's final sorted(). -/
def insertLex (a : String) : List String → List String
  | [] => [a]
  | b :: bs => if b < a then b :: insertLex a bs else a :: b :: bs

/-- Lexicographic sort of paths. -/
def sortLex (l : List String) : List String := l.foldr insertLex []

/-- Model of os.walk(root, topdown=False): every existing directory at or below
root, deepest (longest path) first, so children come before their parents. -/
def walkBottomUp (fs : FS) (root : String) : List String :=
  sortByLenDesc (fs.dirs.filter (fun p => p == root || strStarts p (root ++ "/")))

/-- Scanner loop over one walked directory list; the cached check's exception,
when any, propagates (find_empty_folders has no handler around it). -/
def scanDirs (fs : FS) (ignoreG fastRescan : Bool) :
    List String → Cache → List String → Except String (List String × Cache)
  | [], cache, found => .ok (found, cache)
  | d :: ds, cache, found => do
    let r ← is_dir_empty_cached fs cache d ignoreG fastRescan
    scanDirs fs ignoreG fastRescan ds r.cache (if r.result then found ++ [d] else found)

/-- Scanner loop over the root list: roots that are not directories are skipped
silently (processor.py lines 85-86). -/
def scanRoots (fs : FS) (ignoreG fastRescan : Bool) :
    List String → Cache → List String → Except String (List String × Cache)
  | [], cache, found => .ok (found, cache)
  | root :: rs, cache, found =>
    if !(fs.isdir root) then scanRoots fs ignoreG fastRescan rs cache found
    else do
      let r ← scanDirs fs ignoreG fastRescan (walkBottomUp fs root) cache found
      scanRoots fs ignoreG fastRescan rs r.2 r.1

/-- Embedding of find_empty_folders (processor.py lines 56-92): walk each root
bottom-up, collect the directories the cached check accepts, then deduplicate
and sort the result. -/
def find_empty_folders (fs : FS) (cache : Cache) (roots : List String)
    (ignoreG fastRescan : Bool) : Except String (List String × Cache) := do
  let r ← scanRoots fs ignoreG fastRescan roots cache []
  return (sortLex r.1.eraseDups, r.2)

/-- C5: with the cache enabled, when a directory's current modification time
equals the one stored in its cache entry, the cached check reuses the stored
effective count with zero enumeration calls and leaves the cache unchanged; and
any successful cached evaluation, re-run on the cache it produced over the
unchanged filesystem, performs no enumeration and returns the same verdict as
the evaluation that stored the entry. -/
theorem C5_cache_reuse (fs : FS) (cache : Cache) (p : String) (g : Bool) :
    (∀ (m : Int) (c0 : Nat), fs.statOf p = .ok m → cache_get cache p = some (m, c0) →
      is_dir_empty_cached fs cache p g true = .ok ⟨c0 == 0, cache, 0, []⟩) ∧
    (∀ v : CachedRes, is_dir_empty_cached fs cache p g true = .ok v →
      is_dir_empty_cached fs v.cache p g true = .ok ⟨v.result, v.cache, 0, []⟩) := by
  constructor
  · intro m c0 hst hget
    simp [is_dir_empty_cached, hst, hget]
  · intro v hv
    unfold is_dir_empty_cached at hv ⊢
    simp only [Bool.not_true, if_false] at hv ⊢
    cases hst : fs.statOf p with
    | err e => rw [hst] at hv; exact absurd hv (by simp)
    | fnf =>
      rw [hst] at hv
      cases hv
      simp [hst]
    | ok m =>
      rw [hst] at hv
      cases hget : cache_get cache p with
      | none =>
        rw [hget] at hv
        cases hv
        simp [hst, cache_get_set]
      | some c0 =>
        rw [hget] at hv
        by_cases hm : (c0.1 == m) = true
        · simp only [hm, if_true] at hv
          cases hv
          simp [hst, hget, hm]
        · simp only [hm, if_false] at hv
          cases hv
          simp [hst, cache_get_set]

/-- Concrete filesystem for the C5 witness: one empty directory "a". -/
def fsC5 : FS := ⟨["a"], [], [], [], [], [], fun _ => 0⟩

/-- Concrete cache for the C5 witness: entry for "a" with the current mtime. -/
def cacheC5 : Cache := [("a", 0, 0)]

theorem C5_cache_reuse_witness :
    fsC5.statOf "a" = .ok 0 ∧ cache_get cacheC5 "a" = some (0, 0) ∧
    is_dir_empty_cached fsC5 cacheC5 "a" true true = .ok ⟨true, cacheC5, 0, []⟩ ∧
    is_dir_empty_cached fsC5 cacheC5 "a" true true = .ok ⟨true, cacheC5, 0, []⟩ :=
  ⟨by decide, by decide,
    (C5_cache_reuse fsC5 cacheC5 "a" true).1 0 0 (by decide) (by decide),
    (C5_cache_reuse fsC5 cacheC5 "a" true).2 ⟨true, cacheC5, 0, []⟩ rfl⟩

/-- Concrete filesystem for C8: directory "r/x" exists but its stat raises a
non-FileNotFoundError exception. -/
def fsC8 : FS := ⟨["r", "r/x"], [], [], [], [], ["r/x"], fun _ => 0⟩

/-- C8 counterexample: the claim says any stat failure makes the cached check
return false and that no single-directory failure aborts find_empty_folders;
here the stat of "r/x" fails with a non-FileNotFoundError exception and
find_empty_folders propagates it to its caller instead of returning a list. -/
theorem C8_counterexample :
    find_empty_folders fsC8 [] ["r"] true true = .error "OSError" := rfl

/-- C8 amended: with the cache enabled, only a stat failure of kind
FileNotFoundError makes the cached check return false (without enumerating and
without aborting); a stat failure of any other kind propagates out of the
cached check, and the scanner loop aborts with it when it reaches that
directory. -/
theorem C8_fnf_false_other_propagates (fs : FS) (cache : Cache) (p : String)
    (g : Bool) :
    (fs.statOf p = .fnf →
      is_dir_empty_cached fs cache p g true = .ok ⟨false, cache, 0, []⟩) ∧
    (∀ e, fs.statOf p = .err e →
      is_dir_empty_cached fs cache p g true = .error e) ∧
    (∀ e, fs.statOf p = .err e → ∀ ds found,
      scanDirs fs g true (p :: ds) cache found = .error e) := by
  refine ⟨fun h => by simp [is_dir_empty_cached, h],
    fun e h => by simp [is_dir_empty_cached, h],
    fun e h ds found => ?_⟩
  have h2 : is_dir_empty_cached fs cache p g true = Except.error e := by
    simp [is_dir_empty_cached, h]
  simp only [scanDirs]
  rw [h2]
  rfl

theorem C8_fnf_false_other_propagates_witness :
    fsC8.statOf "zz" = .fnf ∧
    is_dir_empty_cached fsC8 [] "zz" true true = .ok ⟨false, [], 0, []⟩ ∧
    fsC8.statOf "r/x" = .err "OSError" ∧
    is_dir_empty_cached fsC8 [] "r/x" true true = .error "OSError" ∧
    scanDirs fsC8 true true ["r/x"] [] [] = .error "OSError" :=
  ⟨by decide,
    (C8_fnf_false_other_propagates fsC8 [] "zz" true).1 (by decide),
    by decide,
    (C8_fnf_false_other_propagates fsC8 [] "r/x" true).2.1 "OSError" (by decide),
    (C8_fnf_false_other_propagates fsC8 [] "r/x" true).2.2 "OSError" (by decide) [] []⟩
/-- Per-entry action of the garbage sweeper's loop (processor.py lines 46-52):
for a file entry with an ignorable name, clear the read-only attribute and
remove it; a chmod/remove failure is logged and the file stays. -/
def sweepEntry (dirpath : String) (acc : FS × List (String × String)) (e : Entry) :
    FS × List (String × String) :=
  if !e.isDir && IGNORABLE_FILES.contains e.name then
    if acc.1.removeFails.contains (dirpath ++ "/" ++ e.name) then
      (acc.1, acc.2 ++ [(dirpath ++ "/" ++ e.name, removeErrMsg)])
    else ({ acc.1 with files := acc.1.files.erase (dirpath ++ "/" ++ e.name) }, acc.2)
  else acc

/-- Embedding of _delete_known_garbage (processor.py lines 42-54): sweep the
ignorable files of a directory; an enumeration failure is logged and nothing is
removed; no exception escapes. -/
def _delete_known_garbage (fs : FS) (dirpath : String) :
    FS × List (String × String) :=
  match fs.scandir dirpath with
  | none => (fs, [(dirpath, scandirErrMsg)])
  | some entries => entries.foldl (sweepEntry dirpath) (fs, [])

/-- Working state of one delete_empty_folders run: the filesystem, the mutable
candidate list, the accumulated error log, the candidates resolved by the
already-gone branch (processor.py lines 124-128), the attempt counter curr, and
the progress events emitted so far. -/
structure DelState where
  fs : FS
  folders : List String
  log : List (String × String)
  gone : List String
  curr : Nat
  events : List (Nat × Nat × String)

/-- The optional garbage sweep before the emptiness check (processor.py lines
130-131). -/
def sweepPhase (removeGarbage : Bool) (fs : FS) (folder : String) :
    FS × List (String × String) :=
  if removeGarbage then _delete_known_garbage fs folder else (fs, [])

/-- Body of one candidate's processing (processor.py lines 123-144), without
the curr increment and the finally-clause progress report: a candidate that is
no longer a directory is resolved as a success and removed from the list;
otherwise garbage is optionally swept, and an effectively empty candidate is
removed with rmdir after a best-effort chmod whose failure is swallowed (the
chmod has no other observable effect in this model); an rmdir exception is
caught and logged and the candidate stays for a later pass. The returned
number is the candidate's contribution to deleted_in_pass. -/
def delBody (removeGarbage g : Bool) (s : DelState) (folder : String) :
    DelState × Nat :=
  if !(s.fs.isdir folder) then
    ({ s with folders := s.folders.erase folder, gone := s.gone ++ [folder] }, 1)
  else if (_is_effectively_empty (sweepPhase removeGarbage s.fs folder).1 folder g).1 then
    if (sweepPhase removeGarbage s.fs folder).1.rmdirFails.contains folder then
      ({ s with fs := (sweepPhase removeGarbage s.fs folder).1,
                log := s.log ++ (sweepPhase removeGarbage s.fs folder).2 ++
                  (_is_effectively_empty (sweepPhase removeGarbage s.fs folder).1 folder g).2 ++
                  [(folder, rmdirErrMsg)] }, 0)
    else
      ({ s with fs := (sweepPhase removeGarbage s.fs folder).1.rmdir folder,
                folders := s.folders.erase folder,
                log := s.log ++ (sweepPhase removeGarbage s.fs folder).2 ++
                  (_is_effectively_empty (sweepPhase removeGarbage s.fs folder).1 folder g).2 }, 1)
  else
    ({ s with fs := (sweepPhase removeGarbage s.fs folder).1,
              log := s.log ++ (sweepPhase removeGarbage s.fs folder).2 ++
                (_is_effectively_empty (sweepPhase removeGarbage s.fs folder).1 folder g).2 }, 0)

/-- One iteration of the inner candidate loop (processor.py lines 119-148):
increment curr, compute the basename label (falling back to the whole path when
the basename is empty), run the body, and in every case report progress when a
callback is installed, with current capped at the fixed total. -/
def delStep (removeGarbage g hasCb : Bool) (total : Nat) (s : DelState)
    (folder : String) : DelState × Nat :=
  let curr2 := s.curr + 1
  let b := pyBasename folder
  let label := if b == "" then folder else b
  let r := delBody removeGarbage g s folder
  let evs := if hasCb then r.1.events ++ [(min curr2 total, total, label)]
             else r.1.events
  ({ r.1 with curr := curr2, events := evs }, r.2)

/-- One pass over a snapshot of the candidate list (the copy taken at
processor.py line 119), accumulating the number deleted in the pass. -/
def delPass (removeGarbage g hasCb : Bool) (total : Nat) :
    List String → DelState → DelState × Nat
  | [], s => (s, 0)
  | f :: rest, s =>
    let r := delStep removeGarbage g hasCb total s f
    let r2 := delPass removeGarbage g hasCb total rest r.1
    (r2.1, r.2 + r2.2)

/-- The pass loop (processor.py lines 116-152): up to maxPass passes over the
current candidate list, adding each pass's deletions to the running total and
breaking after a pass that deleted nothing. -/
def delLoop (removeGarbage g hasCb : Bool) (total : Nat) :
    Nat → DelState → DelState × Nat
  | 0, s => (s, 0)
  | fuel + 1, s =>
    let r := delPass removeGarbage g hasCb total s.folders s
    if r.2 = 0 then (r.1, 0)
    else
      let r2 := delLoop removeGarbage g hasCb total fuel r.1
      (r2.1, r.2 + r2.2)

/-- Observable result of one delete_empty_folders run. -/
structure DelResult where
  count : Nat
  fs : FS
  cache : Cache
  events : List (Nat × Nat × String)
  log : List (String × String)
  gone : List String
  curr : Nat
  total : Nat

/-- Embedding of delete_empty_folders (processor.py lines 94-155): an empty
input returns 0 immediately; otherwise the candidates are deduplicated and
sorted longest path first once, processed in up to maxPass passes, and the
cache entries under every candidate still in the list are cleared at the end. -/
def delete_empty_folders (fs : FS) (cache : Cache) (folders0 : List String)
    (hasCb removeGarbage g : Bool) (maxPass : Nat) : DelResult :=
  if folders0.isEmpty then ⟨0, fs, cache, [], [], [], 0, 0⟩
  else
    let folders := sortByLenDesc folders0.eraseDups
    let total := folders.length
    let s0 : DelState := ⟨fs, folders, [], [], 0, []⟩
    let r := delLoop removeGarbage g hasCb total maxPass s0
    let cache2 := r.1.folders.foldl (fun c f => cache_clear_under c f) cache
    ⟨r.2, r.1.fs, cache2, r.1.events, r.1.log, r.1.gone, r.1.curr, total⟩

/-- Concrete nested chain for C1: a contains only a/b, a/b contains only
a/b/c, and a/b/c is empty. -/
def fsNested : FS := ⟨["a", "a/b", "a/b/c"], [], [], [], [], [], fun _ => 0⟩

/-- C1 counterexample: with the nested chain a ⊃ a/b ⊃ a/b/c and only the empty
leaf a/b/c as candidate, a run with max_pass = 3 deletes just the leaf and
returns 1, and a and a/b remain on disk: delete_empty_folders never adds a
deleted candidate's parent to the candidate set, so emptiness does not cascade
upward. -/
theorem C1_counterexample :
    (delete_empty_folders fsNested [] ["a/b/c"] false true true 3).count = 1 ∧
    (delete_empty_folders fsNested [] ["a/b/c"] false true true 3).fs.dirs =
      ["a", "a/b"] :=
  ⟨rfl, rfl⟩

/-- C1 amended: the deleter adds no parent paths; with the same nested chain,
all three directories are removed and the count is 3 when a, a/b and a/b/c are
all passed as candidates — the longest-path-first order already deletes child
before parent, so one pass (hence any max_passes >= 1, in particular >= 3)
suffices. -/
theorem C1_amended_all_candidates :
    (delete_empty_folders fsNested [] ["a", "a/b", "a/b/c"] false true true 3).count = 3 ∧
    (delete_empty_folders fsNested [] ["a", "a/b", "a/b/c"] false true true 3).fs.dirs =
      [] :=
  ⟨rfl, rfl⟩

/-- Concrete filesystem with no directories at all, for C2. -/
def fsEmptyDisk : FS := ⟨[], [], [], [], [], [], fun _ => 0⟩

/-- C2 counterexample: a single candidate "x" that does not denote an existing
directory; the run removes nothing from disk, yet returns 1 — the already-gone
branch increments deleted_in_pass (processor.py line 126), so the returned
integer is not the number of directories the run itself removed. -/
theorem C2_counterexample :
    (delete_empty_folders fsEmptyDisk [] ["x"] false true true 3).count = 1 ∧
    (delete_empty_folders fsEmptyDisk [] ["x"] false true true 3).fs.dirs = [] :=
  ⟨rfl, rfl⟩

/-- Concrete one-directory filesystem for C3. -/
def fsOne : FS := ⟨["aa"], [], [], [], [], [], fun _ => 0⟩

/-- C3 counterexample: a run over the single empty candidate "aa" with a
callback installed emits exactly one progress event, (1, 1, "aa"), and ends
without any (total, total, "done") callback — delete_empty_folders emits no
final done event. -/
theorem C3_counterexample :
    (delete_empty_folders fsOne [] ["aa"] true true true 3).events =
      [(1, 1, "aa")] := rfl

/-- Concrete filesystem for C4 and its witness: "aa" is empty, "b" contains the
non-ignorable file "b/f". -/
def fsC4 : FS := ⟨["aa", "b"], ["b/f"], [], [], [], [], fun _ => 0⟩

/-- C4 counterexample: with candidates "aa" (empty) and "b" (non-empty), "b"
survives pass 1 and is retried in pass 2, and the callback fires for it again:
the emitted events are (1,2,"aa"), (2,2,"b"), (2,2,"b") — the retried directory
is reported twice, contradicting the at-most-once claim. -/
theorem C4_counterexample :
    (delete_empty_folders fsC4 [] ["aa", "b"] true true true 3).events =
      [(1, 2, "aa"), (2, 2, "b"), (2, 2, "b")] := rfl

/-- Concrete filesystem for C6: five empty directories, rmdir of "d5" raises
persistently. -/
def fsC6 : FS := ⟨["d1", "d2", "d3", "d4", "d5"], [], [], ["d5"], [], [],
  fun _ => 0⟩

/-- C6 counterexample: with the default max_pass = 3 used by the caller, the
run deletes the other four and returns 4, but produces two error log entries
for "d5", not exactly one: the failing directory is retried in a second pass,
which logs again before the no-progress early stop. -/
theorem C6_counterexample :
    (delete_empty_folders fsC6 [] ["d1", "d2", "d3", "d4", "d5"] false true true 3).count
      = 4 ∧
    (delete_empty_folders fsC6 [] ["d1", "d2", "d3", "d4", "d5"] false true true 3).log
      = [("d5", rmdirErrMsg), ("d5", rmdirErrMsg)] :=
  ⟨rfl, rfl⟩

/-- C6 amended: the other four candidates are still deleted and the returned
count is 4, with one error log entry for the failing directory per pass that
attempts it: exactly one entry when max_pass = 1, and exactly two entries (the
failing pass plus one retry pass that makes no progress) when max_pass is the
caller's default 3. -/
theorem C6_amended_failure_isolation :
    ((delete_empty_folders fsC6 [] ["d1", "d2", "d3", "d4", "d5"] false true true 1).count
        = 4 ∧
      (delete_empty_folders fsC6 [] ["d1", "d2", "d3", "d4", "d5"] false true true 1).log
        = [("d5", rmdirErrMsg)] ∧
      (delete_empty_folders fsC6 [] ["d1", "d2", "d3", "d4", "d5"] false true true 1).fs.dirs
        = ["d5"]) ∧
    ((delete_empty_folders fsC6 [] ["d1", "d2", "d3", "d4", "d5"] false true true 3).count
        = 4 ∧
      (delete_empty_folders fsC6 [] ["d1", "d2", "d3", "d4", "d5"] false true true 3).log
        = [("d5", rmdirErrMsg), ("d5", rmdirErrMsg)] ∧
      (delete_empty_folders fsC6 [] ["d1", "d2", "d3", "d4", "d5"] false true true 3).fs.dirs
        = ["d5"]) :=
  ⟨⟨rfl, rfl, rfl⟩, ⟨rfl, rfl, rfl⟩⟩

theorem sweepEntry_preserves (d : String) (acc : FS × List (String × String))
    (e : Entry) :
    (sweepEntry d acc e).1.dirs = acc.1.dirs ∧
    (sweepEntry d acc e).1.scanFails = acc.1.scanFails ∧
    (sweepEntry d acc e).1.rmdirFails = acc.1.rmdirFails := by
  unfold sweepEntry
  split_ifs <;> exact ⟨rfl, rfl, rfl⟩

theorem sweepFold_preserves (d : String) (es : List Entry) :
    ∀ acc : FS × List (String × String),
      (es.foldl (sweepEntry d) acc).1.dirs = acc.1.dirs ∧
      (es.foldl (sweepEntry d) acc).1.scanFails = acc.1.scanFails ∧
      (es.foldl (sweepEntry d) acc).1.rmdirFails = acc.1.rmdirFails := by
  induction es with
  | nil => intro acc; exact ⟨rfl, rfl, rfl⟩
  | cons e es ih =>
    intro acc
    have h1 := sweepEntry_preserves d acc e
    have h2 := ih (sweepEntry d acc e)
    simp only [List.foldl_cons]
    exact ⟨h2.1.trans h1.1, h2.2.1.trans h1.2.1, h2.2.2.trans h1.2.2⟩

theorem delete_known_garbage_preserves (fs : FS) (d : String) :
    (_delete_known_garbage fs d).1.dirs = fs.dirs ∧
    (_delete_known_garbage fs d).1.scanFails = fs.scanFails ∧
    (_delete_known_garbage fs d).1.rmdirFails = fs.rmdirFails := by
  unfold _delete_known_garbage
  cases h : fs.scandir d with
  | none => exact ⟨rfl, rfl, rfl⟩
  | some entries => exact sweepFold_preserves d entries (fs, [])

theorem isEmpty_true_scandir_ok (fs : FS) (f : String) (g : Bool)
    (h : (_is_effectively_empty fs f g).1 = true) :
    fs.scanFails.contains f = false := by
  unfold _is_effectively_empty at h
  cases hs : fs.scandir f with
  | none => rw [hs] at h; simp at h
  | some es =>
    unfold FS.scandir at hs
    by_cases h1 : (fs.scanFails.contains f || !fs.dirs.contains f) = true
    · rw [if_pos h1] at hs; cases hs
    · simp only [Bool.or_eq_true, Bool.not_eq_true'] at h1
      push_neg at h1
      simpa using h1.1

theorem sweepPhase_preserves (rg : Bool) (fs : FS) (f : String) :
    (sweepPhase rg fs f).1.dirs = fs.dirs ∧
    (sweepPhase rg fs f).1.scanFails = fs.scanFails ∧
    (sweepPhase rg fs f).1.rmdirFails = fs.rmdirFails := by
  unfold sweepPhase
  cases rg
  · exact ⟨rfl, rfl, rfl⟩
  · simpa using delete_known_garbage_preserves fs f

theorem delBody_parts (rg g : Bool) (s : DelState) (f dir : String) :
    (delBody rg g s f).1.curr = s.curr ∧
    (delBody rg g s f).1.events = s.events ∧
    (delBody rg g s f).1.fs.scanFails = s.fs.scanFails ∧
    ((delBody rg g s f).2 + (delBody rg g s f).1.fs.dirs.length + s.gone.length =
      s.fs.dirs.length + (delBody rg g s f).1.gone.length) ∧
    (s.fs.scanFails.contains dir = true → s.fs.dirs.contains dir = true →
      (delBody rg g s f).1.fs.dirs.contains dir = true) := by
  obtain ⟨hWd, hWs, hWr⟩ := sweepPhase_preserves rg s.fs f
  unfold delBody
  split_ifs with h1 h2 h3
  · refine ⟨rfl, rfl, rfl, ?_, fun _ hb => hb⟩
    dsimp only
    simp
    omega
  · refine ⟨rfl, rfl, hWs, ?_, ?_⟩
    · dsimp only
      rw [hWd]
      omega
    · intro _ hb
      dsimp only
      rw [hWd]
      exact hb
  · have hd : s.fs.isdir f = true := by
      cases hh : s.fs.isdir f
      · rw [hh] at h1; simp at h1
      · rfl
    have hfmem : f ∈ s.fs.dirs := by simpa [FS.isdir] using hd
    have hfW : f ∈ (sweepPhase rg s.fs f).1.dirs := by rw [hWd]; exact hfmem
    have hlen := List.length_erase_add_one hfW
    have hne : (sweepPhase rg s.fs f).1.scanFails.contains f = false :=
      isEmpty_true_scandir_ok _ f g h2
    refine ⟨rfl, rfl, hWs, ?_, ?_⟩
    · dsimp only [FS.rmdir]
      rw [hWd] at hlen
      rw [hWd]
      omega
    · intro ha hb
      have hfd : f ≠ dir := by
        intro hEq
        have hne2 : s.fs.scanFails.contains f = false := by
          rw [← hWs]
          exact hne
        rw [hEq, ha] at hne2
        cases hne2
      have hdm : dir ∈ s.fs.dirs := by simpa using hb
      have hdm2 : dir ∈ (sweepPhase rg s.fs f).1.dirs.erase f := by
        rw [hWd]
        exact (List.mem_erase_of_ne (Ne.symm hfd)).2 hdm
      simpa [FS.rmdir] using hdm2
  · refine ⟨rfl, rfl, hWs, ?_, ?_⟩
    · dsimp only
      rw [hWd]
      omega
    · intro _ hb
      dsimp only
      rw [hWd]
      exact hb

theorem delStep_parts (rg g cb : Bool) (T : Nat) (s : DelState) (f dir : String) :
    (delStep rg g cb T s f).1.curr = s.curr + 1 ∧
    ((delStep rg g cb T s f).1.events.map (fun e => e.1) =
      if cb then s.events.map (fun e => e.1) ++ [min (s.curr + 1) T]
      else s.events.map (fun e => e.1)) ∧
    (delStep rg g cb T s f).1.fs.scanFails = s.fs.scanFails ∧
    ((delStep rg g cb T s f).2 + (delStep rg g cb T s f).1.fs.dirs.length +
        s.gone.length =
      s.fs.dirs.length + (delStep rg g cb T s f).1.gone.length) ∧
    (s.fs.scanFails.contains dir = true → s.fs.dirs.contains dir = true →
      (delStep rg g cb T s f).1.fs.dirs.contains dir = true) := by
  obtain ⟨b1, b2, b3, b4, b5⟩ := delBody_parts rg g s f dir
  unfold delStep
  dsimp only
  refine ⟨rfl, ?_, b3, b4, b5⟩
  cases cb
  · simpa using congrArg (List.map (fun e => e.1)) b2
  · simp only [if_true]
    rw [List.map_append, b2]
    rfl

theorem delPass_parts (rg g cb : Bool) (T : Nat) (dir : String) (l : List String) :
    ∀ s : DelState,
      (delPass rg g cb T l s).1.curr = s.curr + l.length ∧
      (delPass rg g cb T l s).1.fs.scanFails = s.fs.scanFails ∧
      ((delPass rg g cb T l s).2 + (delPass rg g cb T l s).1.fs.dirs.length +
          s.gone.length =
        s.fs.dirs.length + (delPass rg g cb T l s).1.gone.length) ∧
      (s.fs.scanFails.contains dir = true → s.fs.dirs.contains dir = true →
        (delPass rg g cb T l s).1.fs.dirs.contains dir = true) := by
  induction l with
  | nil =>
    intro s
    exact ⟨by simp [delPass], by simp [delPass], by simp [delPass],
      fun _ hb => by simpa [delPass] using hb⟩
  | cons f l ih =>
    intro s
    obtain ⟨s1, s2, s3, s4, s5⟩ := delStep_parts rg g cb T s f dir
    obtain ⟨p1, p2, p3, p4⟩ := ih (delStep rg g cb T s f).1
    refine ⟨?_, ?_, ?_, ?_⟩
    · simp only [delPass]
      rw [p1, s1]
      simp
      omega
    · simp only [delPass]
      rw [p2, s3]
    · simp only [delPass]
      omega
    · intro ha hb
      simp only [delPass]
      refine p4 ?_ (s5 ha hb)
      rw [s3]
      exact ha

theorem delLoop_parts (rg g cb : Bool) (T : Nat) (dir : String) (fuel : Nat) :
    ∀ s : DelState,
      s.curr ≤ (delLoop rg g cb T fuel s).1.curr ∧
      (delLoop rg g cb T fuel s).1.fs.scanFails = s.fs.scanFails ∧
      ((delLoop rg g cb T fuel s).2 + (delLoop rg g cb T fuel s).1.fs.dirs.length +
          s.gone.length =
        s.fs.dirs.length + (delLoop rg g cb T fuel s).1.gone.length) ∧
      (s.fs.scanFails.contains dir = true → s.fs.dirs.contains dir = true →
        (delLoop rg g cb T fuel s).1.fs.dirs.contains dir = true) := by
  induction fuel with
  | zero =>
    intro s
    exact ⟨le_refl _, rfl, by simp [delLoop], fun _ hb => by simpa [delLoop] using hb⟩
  | succ fuel ih =>
    intro s
    obtain ⟨q1, q2, q3, q4⟩ := delPass_parts rg g cb T dir s.folders s
    by_cases hz : (delPass rg g cb T s.folders s).2 = 0
    · simp only [delLoop]
      rw [if_pos hz]
      refine ⟨?_, q2, ?_, q4⟩
      · dsimp only
        omega
      · dsimp only
        omega
    · obtain ⟨r1, r2, r3, r4⟩ := ih (delPass rg g cb T s.folders s).1
      simp only [delLoop]
      rw [if_neg hz]
      refine ⟨?_, ?_, ?_, ?_⟩
      · dsimp only
        omega
      · dsimp only
        rw [r2, q2]
      · dsimp only
        omega
      · intro ha hb
        dsimp only
        refine r4 ?_ (q4 ha hb)
        rw [q2]
        exact ha

/-- C2 amended: for every run of delete_empty_folders, the returned integer
equals the number of directories the run itself removed from disk plus the
number of candidates resolved by the already-gone branch; a candidate path that
no longer denotes an existing directory is removed from the candidate set and
does contribute to the returned count. -/
theorem C2_count_decomposition (fs : FS) (cache : Cache) (folders0 : List String)
    (hasCb rg g : Bool) (maxPass : Nat) :
    (delete_empty_folders fs cache folders0 hasCb rg g maxPass).count +
      (delete_empty_folders fs cache folders0 hasCb rg g maxPass).fs.dirs.length =
    fs.dirs.length +
      (delete_empty_folders fs cache folders0 hasCb rg g maxPass).gone.length := by
  unfold delete_empty_folders
  by_cases hE : folders0.isEmpty = true
  · rw [if_pos hE]
    simp
  · rw [if_neg hE]
    dsimp only
    have hL := (delLoop_parts rg g hasCb (sortByLenDesc folders0.eraseDups).length ""
      maxPass ⟨fs, sortByLenDesc folders0.eraseDups, [], [], 0, []⟩).2.2.1
    simpa using hL

/-- C7: a directory whose child enumeration fails is handled fail-safe: the
counting evaluator logs exactly one error entry naming that directory and
returns 1, and a directory whose enumeration persistently fails (it is in
scanFails) is never removed by delete_empty_folders — if it exists when the run
starts, it still exists when the run ends. -/
theorem C7_enum_failure_fail_safe :
    (∀ (fs : FS) (d : String) (g : Bool), fs.scandir d = none →
      _effective_count fs d g = (1, [(d, scandirErrMsg)])) ∧
    (∀ (fs : FS) (cache : Cache) (folders0 : List String) (hasCb rg g : Bool)
        (maxPass : Nat) (dir : String),
      fs.scanFails.contains dir = true → fs.dirs.contains dir = true →
      (delete_empty_folders fs cache folders0 hasCb rg g maxPass).fs.dirs.contains dir
        = true) := by
  constructor
  · intro fs d g h
    simp [_effective_count, h]
  · intro fs cache folders0 hasCb rg g maxPass dir h1 h2
    unfold delete_empty_folders
    by_cases hE : folders0.isEmpty = true
    · rw [if_pos hE]
      exact h2
    · rw [if_neg hE]
      dsimp only
      exact (delLoop_parts rg g hasCb (sortByLenDesc folders0.eraseDups).length dir
        maxPass ⟨fs, sortByLenDesc folders0.eraseDups, [], [], 0, []⟩).2.2.2 h1 h2

/-- Concrete filesystem for the C7 witness: the directory "u" exists but its
enumeration raises. -/
def fsC7 : FS := ⟨["u"], [], ["u"], [], [], [], fun _ => 0⟩

theorem C7_enum_failure_fail_safe_witness :
    fsC7.scandir "u" = none ∧
    _effective_count fsC7 "u" true = (1, [("u", scandirErrMsg)]) ∧
    fsC7.scanFails.contains "u" = true ∧ fsC7.dirs.contains "u" = true ∧
    (delete_empty_folders fsC7 [] ["u"] false true true 3).fs.dirs.contains "u"
      = true :=
  ⟨by decide, C7_enum_failure_fail_safe.1 fsC7 "u" true (by decide), by decide,
    by decide,
    C7_enum_failure_fail_safe.2 fsC7 [] ["u"] false true true 3 "u" (by decide)
      (by decide)⟩

/-- Values reported as "current" by the progress events, in emission order. -/
def evVals (s : DelState) : List Nat := s.events.map (fun e => e.1)

/-- Progress invariant maintained across a run with an installed callback:
reported currents are non-decreasing and capped at the total, one event has
been emitted per attempt, and the most recent event reports min(curr, total). -/
def ProgInv (T : Nat) (s : DelState) : Prop :=
  List.Chain' (· ≤ ·) (evVals s) ∧
  (∀ x ∈ evVals s, x ≤ T) ∧
  (evVals s).length = s.curr ∧
  (1 ≤ s.curr → (evVals s).getLast? = some (min s.curr T))

theorem delStep_ProgInv (rg g : Bool) (T : Nat) (s : DelState) (f : String)
    (h : ProgInv T s) : ProgInv T (delStep rg g true T s f).1 := by
  obtain ⟨hc, hub, hlen, hlast⟩ := h
  obtain ⟨s1, s2, _, _, _⟩ := delStep_parts rg g true T s f f
  rw [if_pos rfl] at s2
  have s2' : evVals (delStep rg g true T s f).1 = evVals s ++ [min (s.curr + 1) T] := s2
  refine ⟨?_, ?_, ?_, ?_⟩
  · rw [s2', List.chain'_append]
    refine ⟨hc, List.chain'_singleton _, ?_⟩
    intro x hx y hy
    simp only [List.head?_cons, Option.mem_def, Option.some.injEq] at hy
    subst hy
    have hne : evVals s ≠ [] := by
      intro hnil
      rw [hnil] at hx
      simp at hx
    have hcur : 1 ≤ s.curr := by
      have hp := List.length_pos.2 hne
      omega
    have hx2 : x = min s.curr T := by
      have hl := hlast hcur
      rw [hl] at hx
      have hx3 : min s.curr T = x := by simpa using hx
      exact hx3.symm
    subst hx2
    exact min_le_min (Nat.le_succ _) (le_refl T)
  · rw [s2']
    intro x hx
    rcases List.mem_append.1 hx with h1 | h1
    · exact hub x h1
    · simp only [List.mem_singleton] at h1
      subst h1
      exact min_le_right _ _
  · rw [s2', s1]
    simp [hlen]
  · intro _
    rw [s2', s1]
    simp [List.getLast?_concat]

theorem delPass_ProgInv (rg g : Bool) (T : Nat) (l : List String) :
    ∀ s : DelState, ProgInv T s → ProgInv T (delPass rg g true T l s).1 := by
  induction l with
  | nil => intro s h; simpa [delPass] using h
  | cons f l ih =>
    intro s h
    simp only [delPass]
    exact ih _ (delStep_ProgInv rg g T s f h)

theorem delLoop_ProgInv (rg g : Bool) (T : Nat) (fuel : Nat) :
    ∀ s : DelState, ProgInv T s → ProgInv T (delLoop rg g true T fuel s).1 := by
  induction fuel with
  | zero => intro s h; simpa [delLoop] using h
  | succ fuel ih =>
    intro s h
    simp only [delLoop]
    by_cases hz : (delPass rg g true T s.folders s).2 = 0
    · rw [if_pos hz]
      exact delPass_ProgInv rg g T s.folders s h
    · rw [if_neg hz]
      exact ih _ (delPass_ProgInv rg g T s.folders s h)

theorem delLoop_curr_ge_total (rg g cb : Bool) (T : Nat) (fuel : Nat)
    (s : DelState) (hfo : s.folders.length = T) (hfuel : 1 ≤ fuel) :
    T ≤ (delLoop rg g cb T fuel s).1.curr := by
  cases fuel with
  | zero => omega
  | succ fuel =>
    have hp := (delPass_parts rg g cb T "" s.folders s).1
    simp only [delLoop]
    by_cases hz : (delPass rg g cb T s.folders s).2 = 0
    · rw [if_pos hz]
      dsimp only
      omega
    · rw [if_neg hz]
      have hge := (delLoop_parts rg g cb T "" fuel (delPass rg g cb T s.folders s).1).1
      dsimp only
      omega

/-- C3 amended: with a non-null callback, the reported current values are
monotonically non-decreasing across all callback invocations, and whenever any
callback was invoked at all, the final invocation reports current equal to the
fixed total; but its label is the basename of the last candidate processed —
delete_empty_folders emits no extra (total, total, "done") callback. -/
theorem C3_progress_monotone_final (fs : FS) (cache : Cache)
    (folders0 : List String) (rg g : Bool) (maxPass : Nat) :
    List.Chain' (· ≤ ·)
      ((delete_empty_folders fs cache folders0 true rg g maxPass).events.map
        (fun e => e.1)) ∧
    (∀ ev, (delete_empty_folders fs cache folders0 true rg g maxPass).events.getLast?
        = some ev →
      ev.1 = (delete_empty_folders fs cache folders0 true rg g maxPass).total) := by
  unfold delete_empty_folders
  by_cases hE : folders0.isEmpty = true
  · rw [if_pos hE]
    constructor
    · simp
    · intro ev h
      simp at h
  · rw [if_neg hE]
    dsimp only
    have hInv := delLoop_ProgInv rg g (sortByLenDesc folders0.eraseDups).length maxPass
      ⟨fs, sortByLenDesc folders0.eraseDups, [], [], 0, []⟩
      ⟨List.chain'_nil, by simp [evVals], by simp [evVals], by intro hx; simp at hx⟩
    obtain ⟨hcn, hub, hlen, hlast⟩ := hInv
    constructor
    · exact hcn
    · intro ev hev
      have hevv : (evVals (delLoop rg g true (sortByLenDesc folders0.eraseDups).length
          maxPass ⟨fs, sortByLenDesc folders0.eraseDups, [], [], 0, []⟩).1).getLast?
          = some ev.1 := by
        unfold evVals
        rw [List.getLast?_map, hev]
        rfl
      have hne : evVals (delLoop rg g true (sortByLenDesc folders0.eraseDups).length
          maxPass ⟨fs, sortByLenDesc folders0.eraseDups, [], [], 0, []⟩).1 ≠ [] := by
        intro h0
        rw [h0] at hevv
        cases hevv
      have hcur1 : 1 ≤ (delLoop rg g true (sortByLenDesc folders0.eraseDups).length
          maxPass ⟨fs, sortByLenDesc folders0.eraseDups, [], [], 0, []⟩).1.curr := by
        have hp := List.length_pos.2 hne
        omega
      have hfuel : 1 ≤ maxPass := by
        cases maxPass with
        | zero =>
          exfalso
          apply hne
          simp [delLoop, evVals]
        | succ n => omega
      have hgeT := delLoop_curr_ge_total rg g true
        (sortByLenDesc folders0.eraseDups).length maxPass
        ⟨fs, sortByLenDesc folders0.eraseDups, [], [], 0, []⟩ rfl hfuel
      have hl2 := hlast hcur1
      rw [hl2] at hevv
      have : min (delLoop rg g true (sortByLenDesc folders0.eraseDups).length
          maxPass ⟨fs, sortByLenDesc folders0.eraseDups, [], [], 0, []⟩).1.curr
          (sortByLenDesc folders0.eraseDups).length = ev.1 := by
        simpa using hevv
      rw [← this]
      omega

theorem C3_progress_monotone_final_witness :
    List.Chain' (· ≤ ·)
      ((delete_empty_folders fsOne [] ["aa"] true true true 3).events.map
        (fun e => e.1)) ∧
    ((1, 1, "aa") : Nat × Nat × String).1 =
      (delete_empty_folders fsOne [] ["aa"] true true true 3).total :=
  ⟨(C3_progress_monotone_final fsOne [] ["aa"] true true 3).1,
    (C3_progress_monotone_final fsOne [] ["aa"] true true 3).2 (1, 1, "aa") rfl⟩

/-- C4 amended: with a non-null callback, delete_empty_folders invokes the
callback once per processing attempt — the number of events equals the attempt
counter curr, which counts retried candidates again in every later pass — and
every reported current value is capped at the initial total; a directory
retried in a later pass is therefore reported again rather than at most once. -/
theorem C4_callback_each_attempt (fs : FS) (cache : Cache)
    (folders0 : List String) (rg g : Bool) (maxPass : Nat) :
    (delete_empty_folders fs cache folders0 true rg g maxPass).events.length =
      (delete_empty_folders fs cache folders0 true rg g maxPass).curr ∧
    (∀ ev ∈ (delete_empty_folders fs cache folders0 true rg g maxPass).events,
      ev.1 ≤ (delete_empty_folders fs cache folders0 true rg g maxPass).total) := by
  unfold delete_empty_folders
  by_cases hE : folders0.isEmpty = true
  · rw [if_pos hE]
    constructor
    · rfl
    · intro ev h
      simp at h
  · rw [if_neg hE]
    dsimp only
    have hInv := delLoop_ProgInv rg g (sortByLenDesc folders0.eraseDups).length maxPass
      ⟨fs, sortByLenDesc folders0.eraseDups, [], [], 0, []⟩
      ⟨List.chain'_nil, by simp [evVals], by simp [evVals], by intro hx; simp at hx⟩
    obtain ⟨hcn, hub, hlen, hlast⟩ := hInv
    constructor
    · simpa [evVals] using hlen
    · intro ev hev
      exact hub ev.1 (List.mem_map_of_mem _ hev)

theorem C4_callback_each_attempt_witness :
    (delete_empty_folders fsC4 [] ["aa", "b"] true true true 3).events.length =
      (delete_empty_folders fsC4 [] ["aa", "b"] true true true 3).curr ∧
    ((2, 2, "b") : Nat × Nat × String).1 ≤
      (delete_empty_folders fsC4 [] ["aa", "b"] true true true 3).total :=
  ⟨(C4_callback_each_attempt fsC4 [] ["aa", "b"] true true 3).1,
    (C4_callback_each_attempt fsC4 [] ["aa", "b"] true true 3).2 (2, 2, "b")
      (by decide)⟩

end EFD
